import Mathlib

set_option maxHeartbeats 1000000
set_option maxRecDepth 16384

/-!
Verification development for the BidGenius dashboard backend (app.py).

Python strings are modelled as `List Char` (a Python `str` is a sequence of
code points).  Each helper below embeds the corresponding Python string
operation used by the source.
-/

/-- Whitespace stripped by the Python method str.strip with no argument
(ASCII portion: space, tab, newline, carriage return, vertical tab, form feed). -/
def isPySpace (c : Char) : Bool :=
  c = ' ' || c = '\t' || c = '\n' || c = '\r' || c = '\x0b' || c = '\x0c'

/-- Drop characters satisfying `p` from the left end. -/
def lstripBy (p : Char → Bool) (cs : List Char) : List Char := cs.dropWhile p

/-- Drop characters satisfying `p` from the right end. -/
def rstripBy (p : Char → Bool) (cs : List Char) : List Char :=
  (cs.reverse.dropWhile p).reverse

/-- Python str.strip with a character-class predicate. -/
def stripBy (p : Char → Bool) (cs : List Char) : List Char := rstripBy p (lstripBy p cs)

/-- Python str.strip() (whitespace on both ends). -/
def pyStrip (cs : List Char) : List Char := stripBy isPySpace cs

/-- The character set of the strip call in the line branch of the question
sanitizer (app.py line 180): dash, space, digits, period, double quote, single
quote. -/
def lineStripSet : List Char :=
  ['-', ' ', '0', '1', '2', '3', '4', '5', '6', '7', '8', '9', '.', '"', '\x27']

/-- app.py line 180: line.strip(\x27- 0123456789."\\\x27\x27). -/
def stripLine (cs : List Char) : List Char :=
  stripBy (fun c => lineStripSet.contains c) cs

/-- Python str.split(newline): split on every newline, keeping empty pieces. -/
def splitNl : List Char → List (List Char)
  | [] => [[]]
  | c :: cs =>
    if c = '\n' then [] :: splitNl cs
    else
      match splitNl cs with
      | [] => [[c]]
      | l :: ls => (c :: l) :: ls

/-- app.py line 183: q.lower().startswith("json"). -/
def lowerStartsWithJson (cs : List Char) : Bool :=
  ['j', 's', 'o', 'n'].isPrefixOf (cs.map Char.toLower)

/-! ## Model of json.loads

The sanitizer calls json.loads on the fence-stripped text (app.py line 172).
We model the JSON grammar accepted by the Python json module: strings with
escape sequences, numbers (kept as lexemes, since the numeric value is never
used downstream), literals, arrays and objects.  A raw control character
inside a string literal is rejected, as in the strict default mode. -/

inductive Json where
  | str : List Char → Json
  | num : List Char → Json
  | bool : Bool → Json
  | null : Json
  | arr : List Json → Json
  | obj : List (List Char × Json) → Json

/-- JSON inter-token whitespace. -/
def jsonWs (c : Char) : Bool := c = ' ' || c = '\t' || c = '\n' || c = '\r'

/-- Skip JSON whitespace. -/
def skipWs (cs : List Char) : List Char := cs.dropWhile jsonWs

/-- Hexadecimal digit value, if any (0-9, a-f, A-F by code point). -/
def hexVal (c : Char) : Option Nat :=
  let n := c.toNat
  if 48 ≤ n ∧ n ≤ 57 then some (n - 48)
  else if 97 ≤ n ∧ n ≤ 102 then some (n - 87)
  else if 65 ≤ n ∧ n ≤ 70 then some (n - 55)
  else none

/-- Body of a JSON string literal, after the opening quote.  Returns the
decoded characters and the rest of the input after the closing quote. -/
def parseStrBody : Nat → List Char → Option (List Char × List Char)
  | 0, _ => none
  | _ + 1, [] => none
  | fuel + 1, c :: cs =>
    if c = '"' then some ([], cs)
    else if c = '\\' then
      match cs with
      | [] => none
      | e :: cs2 =>
        if e = 'u' then
          match cs2 with
          | h1 :: h2 :: h3 :: h4 :: cs3 =>
            match hexVal h1, hexVal h2, hexVal h3, hexVal h4 with
            | some a, some b, some c2, some d =>
              let n := ((a * 16 + b) * 16 + c2) * 16 + d
              if n < 0xd800 || 0xdfff < n then
                match parseStrBody fuel cs3 with
                | some (s, rest) => some (Char.ofNat n :: s, rest)
                | none => none
              else none
            | _, _, _, _ => none
          | _ => none
        else
          let dec : Option Char :=
            if e = '"' then some '"'
            else if e = '\\' then some '\\'
            else if e = '/' then some '/'
            else if e = 'b' then some '\x08'
            else if e = 'f' then some '\x0c'
            else if e = 'n' then some '\n'
            else if e = 'r' then some '\r'
            else if e = 't' then some '\t'
            else none
          match dec with
          | some d =>
            match parseStrBody fuel cs2 with
            | some (s, rest) => some (d :: s, rest)
            | none => none
          | none => none
    else if c.toNat < 0x20 then none
    else
      match parseStrBody fuel cs with
      | some (s, rest) => some (c :: s, rest)
      | none => none

/-- A JSON number lexeme: sign, integer part without leading zeros, optional
fraction, optional exponent.  Returns the lexeme and the rest. -/
def parseNum (cs : List Char) : Option (List Char × List Char) :=
  let (sign, cs1) :=
    match cs with
    | '-' :: t => (['-'], t)
    | _ => (([] : List Char), cs)
  let ds := cs1.takeWhile Char.isDigit
  let cs2 := cs1.drop ds.length
  if ds.isEmpty then none
  else if 1 < ds.length && ds.head? = some '0' then none
  else
    let (fr, cs3) :=
      match cs2 with
      | '.' :: t =>
        let fd := t.takeWhile Char.isDigit
        if fd.isEmpty then (([] : List Char), cs2)
        else ('.' :: fd, t.drop fd.length)
      | _ => (([] : List Char), cs2)
    if cs3 ≠ cs2 && fr.isEmpty then none
    else
      let (ex, cs4) :=
        match cs3 with
        | e :: t =>
          if e = 'e' || e = 'E' then
            let (sg, t2) :=
              match t with
              | s :: t2 => if s = '+' || s = '-' then ([s], t2) else (([] : List Char), t)
              | [] => (([] : List Char), t)
            let ed := t2.takeWhile Char.isDigit
            if ed.isEmpty then (([] : List Char), cs3)
            else (e :: (sg ++ ed), t2.drop ed.length)
          else (([] : List Char), cs3)
        | [] => (([] : List Char), cs3)
      some (sign ++ ds ++ fr ++ ex, cs4)

mutual

/-- One JSON value, fuelled recursive descent. -/
def parseVal : Nat → List Char → Option (Json × List Char)
  | 0, _ => none
  | fuel + 1, cs =>
    match skipWs cs with
    | [] => none
    | c :: rest =>
      if c = '"' then
        match parseStrBody (fuel + 1) rest with
        | some (s, r) => some (Json.str s, r)
        | none => none
      else if c = '[' then
        match skipWs rest with
        | ']' :: r2 => some (Json.arr [], r2)
        | _ =>
          match parseItems fuel rest with
          | some (vs, r2) => some (Json.arr vs, r2)
          | none => none
      else if c = '{' then
        match skipWs rest with
        | '}' :: r2 => some (Json.obj [], r2)
        | _ =>
          match parseMembers fuel rest with
          | some (ms, r2) => some (Json.obj ms, r2)
          | none => none
      else if c = 't' then
        if ['r', 'u', 'e'].isPrefixOf rest then some (Json.bool true, rest.drop 3) else none
      else if c = 'f' then
        if ['a', 'l', 's', 'e'].isPrefixOf rest then some (Json.bool false, rest.drop 4) else none
      else if c = 'n' then
        if ['u', 'l', 'l'].isPrefixOf rest then some (Json.null, rest.drop 3) else none
      else if c = 'N' then
        if ['a', 'N'].isPrefixOf rest then some (Json.num ['N', 'a', 'N'], rest.drop 2) else none
      else if c = 'I' then
        if ['n', 'f', 'i', 'n', 'i', 't', 'y'].isPrefixOf rest then
          some (Json.num ('I' :: ['n', 'f', 'i', 'n', 'i', 't', 'y']), rest.drop 7)
        else none
      else if c = '-' && rest.head? = some 'I' then
        if ['I', 'n', 'f', 'i', 'n', 'i', 't', 'y'].isPrefixOf rest then
          some (Json.num ('-' :: ['I', 'n', 'f', 'i', 'n', 'i', 't', 'y']), rest.drop 8)
        else none
      else
        match parseNum (c :: rest) with
        | some (lex, r) => some (Json.num lex, r)
        | none => none

/-- Comma-separated items of a non-empty array, up to the closing bracket. -/
def parseItems : Nat → List Char → Option (List Json × List Char)
  | 0, _ => none
  | fuel + 1, cs =>
    match parseVal fuel cs with
    | none => none
    | some (v, r) =>
      match skipWs r with
      | ',' :: r2 =>
        match parseItems fuel r2 with
        | some (vs, r3) => some (v :: vs, r3)
        | none => none
      | ']' :: r2 => some ([v], r2)
      | _ => none

/-- Comma-separated members of a non-empty object, up to the closing brace. -/
def parseMembers : Nat → List Char → Option (List (List Char × Json) × List Char)
  | 0, _ => none
  | fuel + 1, cs =>
    match skipWs cs with
    | '"' :: r =>
      match parseStrBody (fuel + 1) r with
      | none => none
      | some (k, r1) =>
        match skipWs r1 with
        | ':' :: r2 =>
          match parseVal fuel r2 with
          | none => none
          | some (v, r3) =>
            match skipWs r3 with
            | ',' :: r4 =>
              match parseMembers fuel r4 with
              | some (ms, r5) => some ((k, v) :: ms, r5)
              | none => none
            | '}' :: r4 => some ([(k, v)], r4)
            | _ => none
        | _ => none
    | _ => none

end

/-- Model of json.loads: parse one value and require only whitespace after. -/
def json_loads (cs : List Char) : Option Json :=
  match parseVal (2 * cs.length + 2) cs with
  | some (v, rest) => if skipWs rest = [] then some v else none
  | none => none

/-! ## The question sanitizer (app.py lines 156-199) -/

/-- The fixed fallback questions (app.py lines 193-199). -/
def fallbackQuestions : List (List Char) :=
  [ "Tell me about your relevant experience for this role.".data,
    "What interests you about this position?".data,
    "Describe a challenging project you\x27ve worked on.".data,
    "What are your salary expectations?".data,
    "Where do you see yourself in 3 years?".data ]

/-- Markdown fence removal (app.py lines 160-168): if the text starts with
three backticks, drop through the first newline, drop a trailing fence of
three backticks, and strip whitespace. -/
def fenceStrip (t : List Char) : List Char :=
  if "```".data.isPrefixOf t then
    let t1 :=
      match t.findIdx? (· = '\n') with
      | some i => t.drop (i + 1)
      | none => t
    let t2 := if "```".data.isSuffixOf t1 then t1.take (t1.length - 3) else t1
    pyStrip t2
  else t

/-- The JSON-branch comprehension (app.py lines 174-177): keep string entries
whose stripped form is longer than 10 characters, stripped. -/
def jsonFilter (vs : List Json) : List (List Char) :=
  vs.filterMap fun v =>
    match v with
    | Json.str q => if 10 < (pyStrip q).length then some (pyStrip q) else none
    | _ => none

/-- The line-splitting branch (app.py lines 180-184): split on newlines, strip
the marker characters from both ends, keep nonempty lines longer than
10 characters not starting with "json" case-insensitively. -/
def lineFilter (t : List Char) : List (List Char) :=
  ((splitNl t).map stripLine).filter fun q =>
    !q.isEmpty && decide (10 < q.length) && !lowerStartsWithJson q

/-- The candidate question list before the final length check: `none` models a
json.loads exception in the bracket-delimited branch. -/
def candidates (raw : List Char) : Option (List (List Char)) :=
  let t := fenceStrip (pyStrip raw)
  if ['['].isPrefixOf t && [']'].isSuffixOf t then
    match json_loads t with
    | some (Json.arr vs) => some (jsonFilter vs)
    | _ => none
  else some (lineFilter t)

/-- The whole sanitizer (app.py lines 156-199): candidates, then the
fewer-than-3 check with the fixed fallback list. -/
def sanitizeQuestions (raw : List Char) : List (List Char) :=
  match candidates raw with
  | none => fallbackQuestions
  | some l => if l.isEmpty || l.length < 3 then fallbackQuestions else l

/-! ## The generation handlers (app.py lines 25-240)

An AI call outcome is modelled as `Option (List Char)`: `none` stands for a
response object with no usable text attribute, `some t` for a response whose
text is `t`.  The handlers check usability exactly as the source does
(`not response.text` also fires on an empty text, hence the isEmpty tests).
Each handler result is paired with the number of generate_content calls
performed, so that "no AI call is made" is expressible. -/

/-- app.py lines 30 and 87. -/
def cfgErrMsg : List Char :=
  "GEMINI_API_KEY not configured. Please add your API key to the .env file.".data

inductive PropResult where
  | ok (proposal : List Char)
  | err (status : Nat) (msg : List Char)
deriving DecidableEq

/-- POST /api/generate-proposal (app.py lines 25-74). -/
def generate_proposal (hasKey : Bool) (resp : Option (List Char)) : Nat × PropResult :=
  if !hasKey then (0, PropResult.err 400 cfgErrMsg)
  else
    match resp with
    | none =>
      (1, PropResult.err 400
        "Gemini API returned empty response. This may be due to safety filters or content blocks.".data)
    | some t =>
      if t.isEmpty then
        (1, PropResult.err 400
          "Gemini API returned empty response. This may be due to safety filters or content blocks.".data)
      else (1, PropResult.ok t)

inductive AppResult where
  | ok (cover : List Char) (questions : List (List Char × List Char))
  | err (status : Nat) (msg : List Char)
deriving DecidableEq

/-- app.py line 223: generic fallback answer for a failed answer call. -/
def fallbackAnswer : List Char :=
  "Based on my experience outlined in my resume, I have the relevant skills and background for this aspect of the role.".data

/-- The answer loop (app.py lines 201-228): one AI call per question, a
usable response text is stripped, anything else becomes the generic fallback
sentence. -/
def answerPairs (qs : List (List Char)) (answers : Nat → Option (List Char)) :
    List (List Char × List Char) :=
  qs.enum.map fun p =>
    (p.2,
      match answers p.1 with
      | some t => if t.isEmpty then fallbackAnswer else pyStrip t
      | none => fallbackAnswer)

/-- POST /api/generate-application (app.py lines 76-240).  `resume` empty
models a missing or empty resume field; `answers i` is the outcome of the
answer call for the i-th kept question. -/
def generate_application (hasKey : Bool) (resume : List Char)
    (cover qtext : Option (List Char)) (answers : Nat → Option (List Char)) :
    Nat × AppResult :=
  if !hasKey then (0, AppResult.err 400 cfgErrMsg)
  else if resume.isEmpty then (0, AppResult.err 400 "Resume text is required".data)
  else
    match cover with
    | none => (1, AppResult.err 400 "Failed to generate cover letter".data)
    | some cl =>
      if cl.isEmpty then (1, AppResult.err 400 "Failed to generate cover letter".data)
      else
        match qtext with
        | none => (2, AppResult.err 400 "Failed to generate interview questions".data)
        | some qt =>
          if qt.isEmpty then
            (2, AppResult.err 400 "Failed to generate interview questions".data)
          else
            let qs := (sanitizeQuestions qt).take 5
            (2 + qs.length, AppResult.ok cl (answerPairs qs answers))

/-! ## The OAuth callback (app.py lines 384-424) -/

inductive CbResult where
  | redirect (location : List Char)
  | err (status : Nat) (msg : List Char)
deriving DecidableEq

/-- GET /callback: missing or empty code gives 400, otherwise a redirect to
the index route (url_for of index is the root path). -/
def oauth_callback (code _state : Option (List Char)) : CbResult :=
  match code with
  | none => CbResult.err 400 "Missing authorization code".data
  | some c =>
    if c.isEmpty then CbResult.err 400 "Missing authorization code".data
    else CbResult.redirect "/".data

/-! ## The jobs endpoint (app.py lines 242-382) -/

/-- The first six fields of a feedparser struct_time value. -/
structure StructTime where
  year : Nat
  month : Nat
  day : Nat
  hour : Nat
  minute : Nat
  second : Nat
deriving DecidableEq

/-- One RSS feed entry as the handler reads it. -/
structure FeedEntry where
  title : Option (List Char)
  link : Option (List Char)
  summary : Option (List Char)
  published : Option (List Char)
  published_parsed : Option StructTime

def isLeapYear (y : Nat) : Bool := y % 4 = 0 && (y % 100 ≠ 0 || y % 400 = 0)

def daysInMonth (y m : Nat) : Nat :=
  if m = 2 then (if isLeapYear y then 29 else 28)
  else if m = 4 || m = 6 || m = 9 || m = 11 then 30
  else 31

/-- Bounds outside which the datetime constructor raises ValueError. -/
def validDt (t : StructTime) : Bool :=
  decide (1 ≤ t.year ∧ t.year ≤ 9999 ∧ 1 ≤ t.month ∧ t.month ≤ 12 ∧
    1 ≤ t.day ∧ t.day ≤ daysInMonth t.year t.month ∧
    t.hour ≤ 23 ∧ t.minute ≤ 59 ∧ t.second ≤ 59)

def digitChar (n : Nat) : Char :=
  match n with
  | 0 => '0' | 1 => '1' | 2 => '2' | 3 => '3' | 4 => '4'
  | 5 => '5' | 6 => '6' | 7 => '7' | 8 => '8' | _ => '9'

def pad2 (n : Nat) : List Char := [digitChar (n / 10), digitChar (n % 10)]

def pad4 (n : Nat) : List Char := pad2 (n / 100) ++ pad2 (n % 100)

/-- datetime.isoformat() for a whole-second datetime: YYYY-MM-DDTHH:MM:SS. -/
def isoChars (t : StructTime) : List Char :=
  pad4 t.year ++ '-' :: (pad2 t.month ++ '-' :: (pad2 t.day ++
    'T' :: (pad2 t.hour ++ ':' :: (pad2 t.minute ++ ':' :: pad2 t.second))))

def monthName (m : Nat) : List Char :=
  (["", "January", "February", "March", "April", "May", "June", "July",
    "August", "September", "October", "November", "December"].getD m "").data

/-- strftime("%B %d, %Y"): full month name, zero-padded day, comma, year. -/
def strftimeBdY (t : StructTime) : List Char :=
  monthName t.month ++ ' ' :: (pad2 t.day ++ ',' :: ' ' :: pad4 t.year)

structure Job where
  id : Int
  title : List Char
  link : List Char
  description : List Char
  summary : List Char
  published : List Char
  published_date : Option (List Char)
  posted : List Char
  source : List Char
  budget : List Char
  job_type : List Char
  location : List Char
  skills : List (List Char)
deriving DecidableEq

/-- Per-source constants: display name, default location, and the salt
appended to the link before hashing for the id. -/
structure SourceCfg where
  srcName : List Char
  defaultLoc : List Char
  idSalt : List Char

def remotiveCfg : SourceCfg := ⟨"Remotive".data, "Remote".data, []⟩

def wwrCfg : SourceCfg := ⟨"We Work Remotely".data, "Anywhere".data, "wwr".data⟩

def pyLower (cs : List Char) : List Char := cs.map Char.toLower

/-- The Python substring test (needle in haystack): some suffix of the
haystack starts with the needle. -/
def containsSub (hay needle : List Char) : Bool :=
  (List.range (hay.length + 1)).any fun i => needle.isPrefixOf (hay.drop i)

/-- Build one job from a feed entry (the body of the per-entry try block,
given that the datetime construction did not raise).  `pyHash` models the
builtin hash on strings, whose value the source never inspects. -/
def buildJob (pyHash : List Char → Int) (cfg : SourceCfg) (e : FeedEntry)
    (dt : Option StructTime) : Job :=
  let pub_date := e.published.getD "N/A".data
  let pub_fmt := match dt with | some t => strftimeBdY t | none => pub_date
  let summary0 := e.summary.getD "No description available".data
  let summary := if 250 < summary0.length then summary0.take 250 ++ "...".data else summary0
  let title := e.title.getD "No Title".data
  let jt1 :=
    if containsSub (pyLower title) "part-time".data ||
        containsSub (pyLower summary) "part time".data then "Part-time".data
    else "Full-time".data
  let jt :=
    if containsSub (pyLower title) "contract".data ||
        containsSub (pyLower title) "freelance".data then "Contract".data
    else jt1
  { id := pyHash (e.link.getD [] ++ cfg.idSalt)
    title := title
    link := e.link.getD "#".data
    description := summary
    summary := summary
    published := pub_fmt
    published_date := dt.map isoChars
    posted := pub_fmt
    source := cfg.srcName
    budget := "See job posting".data
    job_type := jt
    location := cfg.defaultLoc
    skills := [] }

/-- Process one entry: a ValueError from the datetime constructor is caught by
the per-entry handler and the entry is skipped (`none`). -/
def processEntry (pyHash : List Char → Int) (cfg : SourceCfg) (e : FeedEntry) :
    Option Job :=
  match e.published_parsed with
  | some t =>
    if validDt t then some (buildJob pyHash cfg e (some t)) else none
  | none => some (buildJob pyHash cfg e none)

/-- Python string comparison (code-point lexicographic), strict. -/
def lexLt : List Char → List Char → Bool
  | [], [] => false
  | [], _ :: _ => true
  | _ :: _, [] => false
  | a :: as, b :: bs => if a < b then true else if a = b then lexLt as bs else false

/-- The sort key of app.py line 367: published_date or the empty string. -/
def sortKey (j : Job) : List Char := j.published_date.getD []

/-- Comparator of the descending sort: a may precede b when its key is not
smaller. -/
def keyGe (a b : Job) : Bool := !lexLt (sortKey a) (sortKey b)

structure JobsResponse where
  status : Nat
  success : Bool
  error : Option (List Char)
  count : Option Nat
  source : Option (List Char)
  jobs : List Job
deriving DecidableEq

/-- The contribution of one source: first 15 entries of its feed, each mapped
through processEntry; a fetch failure (`none` feed) contributes nothing. -/
def sourceJobs (pyHash : List Char → Int) (cfg : SourceCfg)
    (feed : Option (List FeedEntry)) : List Job :=
  match feed with
  | some es => (es.take 15).filterMap (processEntry pyHash cfg)
  | none => []

/-- The jobs gathered from the sources selected by the source parameter. -/
def selectedJobs (pyHash : List Char → Int) (source : List Char)
    (remotiveFeed wwrFeed : Option (List FeedEntry)) : List Job :=
  (if source = "remotive".data || source = "all".data then
    sourceJobs pyHash remotiveCfg remotiveFeed
  else []) ++
  (if source = "wwremote".data || source = "all".data then
    sourceJobs pyHash wwrCfg wwrFeed
  else [])

/-- GET /api/jobs (app.py lines 242-382). -/
def get_remote_jobs (pyHash : List Char → Int) (source : List Char)
    (remotiveFeed wwrFeed : Option (List FeedEntry)) : JobsResponse :=
  let jobs := selectedJobs pyHash source remotiveFeed wwrFeed
  if jobs.isEmpty then
    { status := 404, success := false, error := some "No jobs found from any source".data,
      count := none, source := none, jobs := [] }
  else
    { status := 200, success := true, error := none, count := some jobs.length,
      source := some source, jobs := jobs.mergeSort keyGe }

/-- A single numeric key that orders valid datetimes chronologically (all
fields below year are bounded by 100 for valid datetimes). -/
def dtKey (t : StructTime) : Nat :=
  ((((t.year * 100 + t.month) * 100 + t.day) * 100 + t.hour) * 100 + t.minute) * 100 + t.second

/-- The ordering the job list claims: a job placed before another has a
published date at least as late, and an undated job is never placed before a
dated one. -/
def DtOrdered (a b : Job) : Prop :=
  (a.published_date = none → b.published_date = none) ∧
  ∀ t1 t2 : StructTime, validDt t1 = true → validDt t2 = true →
    a.published_date = some (isoChars t1) → b.published_date = some (isoChars t2) →
    dtKey t2 ≤ dtKey t1

/-- The backquote character (code point 96), the character of markdown
fences. -/
def bq : Char := Char.ofNat 96

/-! # Theorems -/

/-! ## Basic facts about stripping -/

theorem dropWhile_dropWhile (p : Char → Bool) (l : List Char) :
    (l.dropWhile p).dropWhile p = l.dropWhile p := by
  induction l with
  | nil => rfl
  | cons a t ih =>
    by_cases h : p a = true
    · simp [List.dropWhile_cons, h, ih]
    · simp [List.dropWhile_cons, h]

theorem dropWhile_eq_self_of_head (p : Char → Bool) (l : List Char) (a : Char)
    (ha : l.head? = some a) (hpa : p a = false) : l.dropWhile p = l := by
  cases l with
  | nil => rfl
  | cons b t =>
    simp at ha
    subst ha
    simp [List.dropWhile_cons, hpa]

theorem rstripBy_eq_self_of_last (p : Char → Bool) (l : List Char) (a : Char)
    (ha : l.getLast? = some a) (hpa : p a = false) : rstripBy p l = l := by
  unfold rstripBy
  rw [dropWhile_eq_self_of_head p l.reverse a _ hpa, List.reverse_reverse]
  rw [List.head?_reverse]
  exact ha

theorem stripBy_eq_self (p : Char → Bool) (l : List Char) (a b : Char)
    (ha : l.head? = some a) (hpa : p a = false)
    (hb : l.getLast? = some b) (hpb : p b = false) : stripBy p l = l := by
  unfold stripBy lstripBy
  rw [dropWhile_eq_self_of_head p l a ha hpa, rstripBy_eq_self_of_last p l b hb hpb]

theorem rstripBy_prefix (p : Char → Bool) (l : List Char) : rstripBy p l <+: l := by
  have h := List.reverse_prefix.2 (List.dropWhile_suffix (l := l.reverse) p)
  rwa [List.reverse_reverse] at h

theorem rstripBy_idem (p : Char → Bool) (l : List Char) :
    rstripBy p (rstripBy p l) = rstripBy p l := by
  unfold rstripBy
  rw [List.reverse_reverse, dropWhile_dropWhile]

theorem dropWhile_fix_head (p : Char → Bool) (l : List Char) (h : l.dropWhile p = l)
    (a : Char) (ha : l.head? = some a) : p a = false := by
  cases l with
  | nil => simp at ha
  | cons b t =>
    have hab : b = a := by simpa using ha
    subst hab
    by_cases hp : p b = true
    · rw [List.dropWhile_cons_of_pos hp] at h
      have hlen := (List.dropWhile_sublist (l := t) p).length_le
      rw [h] at hlen
      simp at hlen
    · simpa using hp

theorem lstrip_of_rstrip_fixed (p : Char → Bool) (l : List Char)
    (h : lstripBy p l = l) : lstripBy p (rstripBy p l) = rstripBy p l := by
  cases hr : rstripBy p l with
  | nil => rfl
  | cons c t =>
    have hpre := rstripBy_prefix p l
    rw [hr] at hpre
    obtain ⟨rest, hrest⟩ := hpre
    have hc : p c = false := by
      apply dropWhile_fix_head p l h c
      rw [← hrest]
      rfl
    unfold lstripBy
    rw [List.dropWhile_cons_of_neg (by simp [hc])]

theorem stripBy_idem (p : Char → Bool) (l : List Char) :
    stripBy p (stripBy p l) = stripBy p l := by
  unfold stripBy
  rw [lstrip_of_rstrip_fixed p (lstripBy p l) (dropWhile_dropWhile p l), rstripBy_idem]

/-! ## C10: the line-splitting branch -/

/-- C10: every question produced by the line-splitting branch of the sanitizer
is stripped of the marker characters (dash, space, digits, period, double
quote, single quote) at both its start and its end, is longer than
10 characters after stripping, and does not start with "json"
case-insensitively. -/
theorem line_branch_output_clean (t q : List Char) (hq : q ∈ lineFilter t) :
    stripLine q = q ∧ 10 < q.length ∧ lowerStartsWithJson q = false := by
  unfold lineFilter at hq
  rw [List.mem_filter] at hq
  obtain ⟨hmem, hpred⟩ := hq
  obtain ⟨line, -, hline⟩ := List.mem_map.1 hmem
  simp only [Bool.and_eq_true, Bool.not_eq_true', decide_eq_true_eq] at hpred
  refine ⟨?_, hpred.1.2, hpred.2⟩
  rw [← hline]
  exact stripBy_idem _ _

/-- Witness for C10 on a concrete line: the trailing period and closing quote
are removed. -/
theorem line_branch_output_clean_witness :
    "What is your role here today?".data ∈
        lineFilter "- \"What is your role here today?.\"".data ∧
      stripLine "What is your role here today?".data = "What is your role here today?".data ∧
      10 < "What is your role here today?".data.length ∧
      lowerStartsWithJson "What is your role here today?".data = false :=
  ⟨by decide,
   line_branch_output_clean "- \"What is your role here today?.\"".data
     "What is your role here today?".data (by decide)⟩

/-! ## C2: the fewer-than-3 fallback -/

/-- C2: whenever the candidate list left by filtering (in either the JSON
branch or the line branch) has fewer than 3 entries, the sanitizer discards it
and returns exactly the fixed 5-question fallback list. -/
theorem sanitizer_fallback_when_few (raw : List Char) (l : List (List Char))
    (hc : candidates raw = some l) (hlen : l.length < 3) :
    sanitizeQuestions raw = fallbackQuestions := by
  unfold sanitizeQuestions
  rw [hc]
  simp [hlen]

/-- Witness for C2: a two-line input whose lines are all 10 characters or
shorter filters down to an empty list, and the fallback is returned. -/
theorem sanitizer_fallback_when_few_witness :
    candidates "too short\nalso short".data = some [] ∧
      sanitizeQuestions "too short\nalso short".data = fallbackQuestions :=
  ⟨by decide,
   sanitizer_fallback_when_few "too short\nalso short".data [] (by decide) (by decide)⟩

/-! ## C4: missing API key -/

/-- C4: with the API key absent, both generation endpoints return HTTP 400
with the configuration-error message and perform zero AI calls. -/
theorem missing_key_config_error (resp cover qtext : Option (List Char))
    (resume : List Char) (answers : Nat → Option (List Char)) :
    generate_proposal false resp = (0, PropResult.err 400 cfgErrMsg) ∧
      generate_application false resume cover qtext answers
        = (0, AppResult.err 400 cfgErrMsg) := by
  constructor
  · rfl
  · rfl

/-! ## C7: the OAuth callback -/

/-- C7 counterexample: with the code query parameter present but equal to the
empty string, the handler answers 400 and does not redirect. -/
theorem callback_empty_code_counterexample :
    oauth_callback (some []) none = CbResult.err 400 "Missing authorization code".data ∧
      oauth_callback (some []) none ≠ CbResult.redirect "/".data := by
  constructor
  · rfl
  · decide

/-- C7 amended: a request without a code parameter, or with an empty one,
gets HTTP 400; a request with a nonempty code is redirected to the index
route. -/
theorem callback_behavior (code st : Option (List Char)) :
    ((code = none ∨ code = some []) →
        oauth_callback code st = CbResult.err 400 "Missing authorization code".data) ∧
      ∀ c : List Char, code = some c → c ≠ [] →
        oauth_callback code st = CbResult.redirect "/".data := by
  constructor
  · rintro (rfl | rfl) <;> rfl
  · rintro c rfl hc
    cases c with
    | nil => exact absurd rfl hc
    | cons a t => rfl

/-- Witness for C7 amended at concrete requests. -/
theorem callback_behavior_witness :
    oauth_callback none none = CbResult.err 400 "Missing authorization code".data ∧
      oauth_callback (some "abc123".data) none = CbResult.redirect "/".data :=
  ⟨(callback_behavior none none).1 (Or.inl rfl),
   (callback_behavior (some "abc123".data) none).2 "abc123".data rfl (by decide)⟩

/-! ## C3: independent answer-call failures -/

/-- C3: once the answer-generation stage is reached (key present, resume
nonempty, cover and question calls usable), the handler returns a success
response no matter which answer calls fail; there are at most 5 pairs and
every pair whose answer call failed carries the generic fallback sentence. -/
theorem answer_failures_do_not_fail_request (resume cl qt : List Char)
    (answers : Nat → Option (List Char))
    (hr : resume.isEmpty = false) (hc : cl.isEmpty = false) (hq : qt.isEmpty = false) :
    ∃ pairs : List (List Char × List Char),
      (generate_application true resume (some cl) (some qt) answers).2
          = AppResult.ok cl pairs ∧
        pairs.length ≤ 5 ∧
        ∀ (i : Nat) (h : i < pairs.length), answers i = none →
          (pairs.get ⟨i, h⟩).2 = fallbackAnswer := by
  refine ⟨answerPairs ((sanitizeQuestions qt).take 5) answers, ?_, ?_, ?_⟩
  · simp [generate_application, hr, hc, hq]
  · have h1 : (answerPairs ((sanitizeQuestions qt).take 5) answers).length
        = ((sanitizeQuestions qt).take 5).length := by
      simp [answerPairs]
    have h2 := List.length_take 5 (sanitizeQuestions qt)
    omega
  · intro i h hi
    simp [answerPairs, hi]

/-- Witness for C3 with every answer call failing. -/
theorem answer_failures_do_not_fail_request_witness :
    ("x".data : List Char).isEmpty = false ∧
      ∃ pairs : List (List Char × List Char),
        (generate_application true "x".data (some "c".data) (some "zz".data)
            (fun _ => none)).2 = AppResult.ok "c".data pairs ∧
          pairs.length ≤ 5 ∧
          ∀ (i : Nat) (h : i < pairs.length), (fun _ : Nat => (none : Option (List Char))) i = none →
            (pairs.get ⟨i, h⟩).2 = fallbackAnswer :=
  ⟨rfl,
   answer_failures_do_not_fail_request "x".data "c".data "zz".data (fun _ => none)
     rfl rfl rfl⟩

/-! ## C9: between 3 and 5 question/answer pairs -/

theorem sanitize_min3 (raw : List Char) : 3 ≤ (sanitizeQuestions raw).length := by
  unfold sanitizeQuestions
  cases h : candidates raw with
  | none =>
    dsimp only
    decide
  | some l =>
    dsimp only
    split
    · decide
    · rename_i hcond
      simp only [Bool.or_eq_true, decide_eq_true_eq, not_or] at hcond
      omega

/-- C9: every success response of the application handler carries between 3
and 5 question/answer pairs. -/
theorem app_questions_between_3_and_5 (hasKey : Bool) (resume : List Char)
    (cover qtext : Option (List Char)) (answers : Nat → Option (List Char))
    (cl : List Char) (pairs : List (List Char × List Char))
    (h : (generate_application hasKey resume cover qtext answers).2
        = AppResult.ok cl pairs) :
    3 ≤ pairs.length ∧ pairs.length ≤ 5 := by
  unfold generate_application at h
  split at h
  · simp at h
  · split at h
    · simp at h
    · cases cover with
      | none => simp at h
      | some cl0 =>
        dsimp only at h
        split at h
        · simp at h
        · cases qtext with
          | none => simp at h
          | some qt =>
            dsimp only at h
            split at h
            · simp at h
            · simp only [AppResult.ok.injEq] at h
              have hp : pairs = answerPairs ((sanitizeQuestions qt).take 5) answers :=
                h.2.symm
              have h1 : (answerPairs ((sanitizeQuestions qt).take 5) answers).length
                  = ((sanitizeQuestions qt).take 5).length := by
                simp [answerPairs]
              have h2 := List.length_take 5 (sanitizeQuestions qt)
              have h3 := sanitize_min3 qt
              rw [hp]
              omega

/-- Witness for C9: a concrete success response (line-branch garbage falls
back to the 5 fixed questions, all 5 answered). -/
theorem app_questions_between_3_and_5_witness :
    (generate_application true "x".data (some "c".data) (some "zz".data)
        (fun _ => some " my answer ".data)).2
      = AppResult.ok "c".data
          (answerPairs ((sanitizeQuestions "zz".data).take 5)
            (fun _ => some " my answer ".data)) ∧
      3 ≤ (answerPairs ((sanitizeQuestions "zz".data).take 5)
            (fun _ => some " my answer ".data)).length ∧
        (answerPairs ((sanitizeQuestions "zz".data).take 5)
            (fun _ => some " my answer ".data)).length ≤ 5 :=
  ⟨rfl,
   app_questions_between_3_and_5 true "x".data (some "c".data) (some "zz".data)
     (fun _ => some " my answer ".data) "c".data _ rfl⟩

/-! ## C5: 404 when every selected source contributes nothing -/

/-- C5: when every feed source selected by the source parameter contributes
zero jobs, the handler returns HTTP 404 with success false, an error message
and an empty job list. -/
theorem jobs_404_when_all_sources_empty (pyHash : List Char → Int) (source : List Char)
    (rf wf : Option (List FeedEntry))
    (hr : source = "remotive".data ∨ source = "all".data →
      sourceJobs pyHash remotiveCfg rf = [])
    (hw : source = "wwremote".data ∨ source = "all".data →
      sourceJobs pyHash wwrCfg wf = []) :
    get_remote_jobs pyHash source rf wf
      = { status := 404, success := false,
          error := some "No jobs found from any source".data,
          count := none, source := none, jobs := [] } := by
  unfold get_remote_jobs selectedJobs
  have h1 : (if source = "remotive".data || source = "all".data then
      sourceJobs pyHash remotiveCfg rf else []) = [] := by
    split
    · rename_i hcond
      simp only [Bool.or_eq_true, decide_eq_true_eq] at hcond
      exact hr hcond
    · rfl
  have h2 : (if source = "wwremote".data || source = "all".data then
      sourceJobs pyHash wwrCfg wf else []) = [] := by
    split
    · rename_i hcond
      simp only [Bool.or_eq_true, decide_eq_true_eq] at hcond
      exact hw hcond
    · rfl
  simp only [h1, h2]
  rfl

/-- Witness for C5: both feeds fetched but empty, source "all". -/
theorem jobs_404_when_all_sources_empty_witness :
    sourceJobs (fun _ => 0) remotiveCfg (some []) = [] ∧
      get_remote_jobs (fun _ => 0) "all".data (some []) (some [])
        = { status := 404, success := false,
            error := some "No jobs found from any source".data,
            count := none, source := none, jobs := [] } :=
  ⟨rfl,
   jobs_404_when_all_sources_empty (fun _ => 0) "all".data (some []) (some [])
     (fun _ => rfl) (fun _ => rfl)⟩

/-! ## C8: summary truncation -/

/-- C8: a processed entry whose summary exceeds 250 characters gets, in both
the description and summary fields, the first 250 characters followed by an
ellipsis; a summary of at most 250 characters is kept unchanged. -/
theorem summary_truncation (pyHash : List Char → Int) (cfg : SourceCfg)
    (e : FeedEntry) (s : List Char) (j : Job)
    (hs : e.summary = some s) (hj : processEntry pyHash cfg e = some j) :
    (250 < s.length →
        j.description = s.take 250 ++ "...".data ∧ j.summary = s.take 250 ++ "...".data) ∧
      (s.length ≤ 250 → j.description = s ∧ j.summary = s) := by
  have hbuild : ∃ dt, j = buildJob pyHash cfg e dt := by
    unfold processEntry at hj
    cases hpp : e.published_parsed with
    | none =>
      rw [hpp] at hj
      dsimp only at hj
      exact ⟨none, (Option.some_inj.1 hj).symm⟩
    | some t =>
      rw [hpp] at hj
      dsimp only at hj
      split at hj
      · exact ⟨some t, (Option.some_inj.1 hj).symm⟩
      · exact absurd hj (by simp)
  obtain ⟨dt, rfl⟩ := hbuild
  unfold buildJob
  rw [hs]
  constructor
  · intro hlong
    dsimp only [Option.getD_some]
    rw [if_pos hlong]
    exact ⟨rfl, rfl⟩
  · intro hshort
    dsimp only [Option.getD_some]
    rw [if_neg (by omega)]
    exact ⟨rfl, rfl⟩

/-- Witness for C8: a 260-character summary is cut to 250 plus the ellipsis. -/
theorem summary_truncation_witness :
    (FeedEntry.mk none none (some (List.replicate 260 'a')) none none).summary
        = some (List.replicate 260 'a') ∧
      250 < (List.replicate 260 'a').length ∧
      ((buildJob (fun _ => 0) remotiveCfg
          (FeedEntry.mk none none (some (List.replicate 260 'a')) none none)
          none).description
        = (List.replicate 260 'a').take 250 ++ "...".data) :=
  ⟨rfl, by simp,
   ((summary_truncation (fun _ => 0) remotiveCfg
       (FeedEntry.mk none none (some (List.replicate 260 'a')) none none)
       (List.replicate 260 'a')
       (buildJob (fun _ => 0) remotiveCfg
         (FeedEntry.mk none none (some (List.replicate 260 'a')) none none) none)
       rfl rfl).1 (by simp)).1⟩

/-! ## C1: fenced JSON arrays of strings -/

theorem fence_data : "```".data = [bq, bq, bq] := rfl

theorem pyStrip_eq_self (l : List Char) (a b : Char)
    (ha : l.head? = some a) (hsa : isPySpace a = false)
    (hb : l.getLast? = some b) (hsb : isPySpace b = false) : pyStrip l = l :=
  stripBy_eq_self _ l a b ha hsa hb hsb

theorem singleton_isPrefixOf (c : Char) (t : List Char) (ht : t.head? = some c) :
    [c].isPrefixOf t = true := by
  cases t with
  | nil => simp at ht
  | cons a r =>
    have ha : a = c := by simpa using ht
    subst ha
    simp [List.isPrefixOf]

theorem singleton_isSuffixOf (c : Char) (t : List Char) (ht : t.getLast? = some c) :
    [c].isSuffixOf t = true := by
  unfold List.isSuffixOf
  apply singleton_isPrefixOf
  rw [List.head?_reverse]
  exact ht

theorem fence_not_prefix_of_bracket (t : List Char) (ht : t.head? = some '[') :
    "```".data.isPrefixOf t = false := by
  rw [Bool.eq_false_iff]
  intro hpre
  rw [List.isPrefixOf_iff_prefix] at hpre
  obtain ⟨w, hw⟩ := hpre
  rw [← hw, fence_data] at ht
  have hbq : bq = '[' := by simpa using ht
  exact absurd hbq (by decide)

theorem fence_not_suffix_of_bracket (t : List Char) (ht : t.getLast? = some ']') :
    "```".data.isSuffixOf t = false := by
  rw [Bool.eq_false_iff]
  intro hsuf
  rw [List.isSuffixOf_iff_suffix] at hsuf
  obtain ⟨w, hw⟩ := hsuf
  rw [← hw, fence_data] at ht
  have hbq : bq = ']' := by simpa using ht
  exact absurd hbq (by decide)

theorem fence_isSuffixOf_append (l : List Char) :
    "```".data.isSuffixOf (l ++ "```".data) = true := by
  rw [List.isSuffixOf_iff_suffix]
  exact List.suffix_append l _

theorem fence_take_append (l : List Char) :
    (l ++ "```".data).take ((l ++ "```".data).length - 3) = l := by
  have hlen : (l ++ "```".data).length = l.length + 3 := by
    rw [List.length_append]
    rfl
  rw [hlen, Nat.add_sub_cancel]
  exact List.take_left' rfl

theorem findIdx_nl (pre post : List Char) (h : ∀ c ∈ pre, ¬ c = '\n') :
    (pre ++ '\n' :: post).findIdx? (· = '\n') = some pre.length := by
  induction pre with
  | nil => simp
  | cons c t ih =>
    have hc : ¬ c = '\n' := h c (by simp)
    rw [List.cons_append, List.findIdx?_cons, if_neg (by simpa using hc),
      List.findIdx?_succ, ih (fun x hx => h x (by simp [hx]))]
    rfl

theorem drop_after_nl (pre post : List Char) :
    (pre ++ '\n' :: post).drop (pre.length + 1) = post := by
  have h : pre ++ '\n' :: post = (pre ++ ['\n']) ++ post := by simp
  rw [h]
  exact List.drop_left' (by simp)

theorem fenceStrip_lead (lang rest : List Char) (b : Char)
    (hlang : ∀ c ∈ lang, ¬ c = '\n')
    (hb : rest.getLast? = some b) (hsb : isPySpace b = false) :
    fenceStrip (pyStrip (("```".data ++ lang) ++ '\n' :: rest))
      = pyStrip (if "```".data.isSuffixOf rest = true then rest.take (rest.length - 3)
          else rest) := by
  have hrne : rest ≠ [] := by
    intro h
    rw [h] at hb
    simp at hb
  have hs_head : (("```".data ++ lang) ++ '\n' :: rest).head? = some bq := rfl
  have hs_last : (("```".data ++ lang) ++ '\n' :: rest).getLast? = some b := by
    rw [List.getLast?_append]
    cases rest with
    | nil => exact absurd rfl hrne
    | cons x xs =>
      rw [List.getLast?_cons_cons, hb]
      rfl
  have hPyS := pyStrip_eq_self _ bq b hs_head (by decide) hs_last hsb
  rw [hPyS]
  unfold fenceStrip
  have hfp : "```".data.isPrefixOf (("```".data ++ lang) ++ '\n' :: rest) = true := by
    rw [List.isPrefixOf_iff_prefix]
    have he : ("```".data ++ lang) ++ '\n' :: rest = "```".data ++ (lang ++ '\n' :: rest) := by
      simp
    rw [he]
    exact List.prefix_append _ _
  rw [hfp, if_pos rfl]
  have hprenl : ∀ c ∈ "```".data ++ lang, ¬ c = '\n' := by
    intro c hcmem
    rw [List.mem_append] at hcmem
    cases hcmem with
    | inl hf =>
      rw [fence_data] at hf
      simp at hf
      subst hf
      decide
    | inr hl => exact hlang c hl
  rw [findIdx_nl _ _ hprenl]
  simp only
  rw [drop_after_nl]

theorem fenceStrip_composed (lead trail : Bool) (lang arrTxt : List Char)
    (hlang : ∀ c ∈ lang, ¬ c = '\n')
    (htl : trail = true → lead = true)
    (hhead : arrTxt.head? = some '[') (hlast : arrTxt.getLast? = some ']') :
    fenceStrip (pyStrip ((if lead then "```".data ++ lang ++ ['\n'] else []) ++
        (arrTxt ++ (if trail then "```".data else [])))) = arrTxt := by
  have hPyA : pyStrip arrTxt = arrTxt :=
    pyStrip_eq_self arrTxt '[' ']' hhead (by decide) hlast (by decide)
  cases lead with
  | false =>
    have htr : trail = false := by
      cases trail with
      | false => rfl
      | true => exact absurd (htl rfl) (by decide)
    subst htr
    show fenceStrip (pyStrip ([] ++ (arrTxt ++ []))) = arrTxt
    rw [List.nil_append, List.append_nil, hPyA]
    unfold fenceStrip
    rw [fence_not_prefix_of_bracket arrTxt hhead]
    rfl
  | true =>
    cases trail with
    | true =>
      show fenceStrip
          (pyStrip (("```".data ++ lang ++ ['\n']) ++ (arrTxt ++ "```".data))) = arrTxt
      have he : ("```".data ++ lang ++ ['\n']) ++ (arrTxt ++ "```".data)
          = ("```".data ++ lang) ++ '\n' :: (arrTxt ++ "```".data) := by simp
      have hb : (arrTxt ++ "```".data).getLast? = some bq := by
        rw [List.getLast?_append]
        rfl
      rw [he, fenceStrip_lead lang _ bq hlang hb (by decide)]
      rw [fence_isSuffixOf_append, if_pos rfl, fence_take_append]
      exact hPyA
    | false =>
      show fenceStrip (pyStrip (("```".data ++ lang ++ ['\n']) ++ (arrTxt ++ []))) = arrTxt
      have he : ("```".data ++ lang ++ ['\n']) ++ (arrTxt ++ [])
          = ("```".data ++ lang) ++ '\n' :: arrTxt := by simp
      rw [he, fenceStrip_lead lang arrTxt ']' hlang hlast (by decide)]
      rw [fence_not_suffix_of_bracket arrTxt hlast]
      rw [if_neg (by decide)]
      exact hPyA

theorem jsonFilter_strings (qs : List (List Char)) :
    jsonFilter (qs.map Json.str)
      = (qs.map pyStrip).filter (fun q => decide (10 < q.length)) := by
  induction qs with
  | nil => rfl
  | cons q t ih =>
    rw [List.map_cons, List.map_cons, List.filter_cons]
    unfold jsonFilter
    rw [List.filterMap_cons]
    unfold jsonFilter at ih
    by_cases h : 10 < (pyStrip q).length
    · rw [if_pos (by simpa using h)]
      dsimp only
      rw [if_pos h, ih]
    · rw [if_neg (by simpa using h)]
      dsimp only
      rw [if_neg h, ih]

theorem candidates_of_fencestrip (raw t : List Char) (vs : List Json)
    (hfs : fenceStrip (pyStrip raw) = t)
    (hhead : t.head? = some '[') (hlast : t.getLast? = some ']')
    (hparse : json_loads t = some (Json.arr vs)) :
    candidates raw = some (jsonFilter vs) := by
  unfold candidates
  rw [hfs]
  rw [if_pos (by
    rw [singleton_isPrefixOf '[' t hhead, singleton_isSuffixOf ']' t hlast]
    rfl)]
  rw [hparse]

theorem sanitize_keeps_candidates (raw : List Char) (l : List (List Char))
    (hc : candidates raw = some l) (hlen : 3 ≤ l.length) :
    sanitizeQuestions raw = l := by
  unfold sanitizeQuestions
  rw [hc]
  have h1 : l.isEmpty = false := by
    cases l with
    | nil => simp at hlen
    | cons x xs => rfl
  have h2 : decide (l.length < 3) = false := decide_eq_false (by omega)
  dsimp only
  rw [h1, h2]
  rfl

/-- C1 amended: for an input made of an optional leading fence line, a JSON
array of strings, and an optional trailing fence (the trailing fence only
together with a leading one), the sanitizer output is the parsed array with
each element whitespace-stripped and filtered to stripped length greater than
10 — provided at least 3 entries survive that filter (otherwise the fixed
fallback list is substituted, see the counterexample). -/
theorem sanitizer_fenced_json_array (lead trail : Bool) (lang arrTxt : List Char)
    (qs : List (List Char))
    (hlang : ∀ c ∈ lang, ¬ c = '\n')
    (htl : trail = true → lead = true)
    (hhead : arrTxt.head? = some '[') (hlast : arrTxt.getLast? = some ']')
    (hparse : json_loads arrTxt = some (Json.arr (qs.map Json.str)))
    (hlen : 3 ≤ ((qs.map pyStrip).filter (fun q => decide (10 < q.length))).length) :
    sanitizeQuestions ((if lead then "```".data ++ lang ++ ['\n'] else []) ++
        (arrTxt ++ (if trail then "```".data else [])))
      = (qs.map pyStrip).filter (fun q => decide (10 < q.length)) := by
  have hfs := fenceStrip_composed lead trail lang arrTxt hlang htl hhead hlast
  have hc := candidates_of_fencestrip _ arrTxt (qs.map Json.str) hfs hhead hlast hparse
  rw [jsonFilter_strings] at hc
  exact sanitize_keeps_candidates _ _ hc hlen

/-- C1 counterexample: a well-formed JSON array of strings whose single entry
is longer than 10 characters, yet the sanitizer does not return the filtered
parse (fewer than 3 entries survive, so the fallback list is substituted). -/
theorem sanitizer_fenced_json_array_counterexample :
    json_loads "[\"aaaaaaaaaaaaaaaa\"]".data
        = some (Json.arr [Json.str "aaaaaaaaaaaaaaaa".data]) ∧
      pyStrip "aaaaaaaaaaaaaaaa".data = "aaaaaaaaaaaaaaaa".data ∧
      10 < "aaaaaaaaaaaaaaaa".data.length ∧
      sanitizeQuestions "[\"aaaaaaaaaaaaaaaa\"]".data ≠ ["aaaaaaaaaaaaaaaa".data] := by
  refine ⟨rfl, by decide, by decide, by decide⟩

/-- Witness for C1 amended: fenced array with three long entries. -/
theorem sanitizer_fenced_json_array_witness :
    json_loads "[\"aaaaaaaaaaaaaaaa\", \"bbbbbbbbbbbbbbbb\", \"cccccccccccccccc\"]".data
        = some (Json.arr (["aaaaaaaaaaaaaaaa".data, "bbbbbbbbbbbbbbbb".data,
            "cccccccccccccccc".data].map Json.str)) ∧
      sanitizeQuestions ((if true then "```".data ++ "json".data ++ ['\n'] else []) ++
          ("[\"aaaaaaaaaaaaaaaa\", \"bbbbbbbbbbbbbbbb\", \"cccccccccccccccc\"]".data ++
            (if true then "```".data else [])))
        = ((["aaaaaaaaaaaaaaaa".data, "bbbbbbbbbbbbbbbb".data,
            "cccccccccccccccc".data].map pyStrip).filter (fun q => decide (10 < q.length))) :=
  ⟨rfl,
   sanitizer_fenced_json_array true true "json".data
     "[\"aaaaaaaaaaaaaaaa\", \"bbbbbbbbbbbbbbbb\", \"cccccccccccccccc\"]".data
     ["aaaaaaaaaaaaaaaa".data, "bbbbbbbbbbbbbbbb".data, "cccccccccccccccc".data]
     (by decide) (fun _ => rfl) rfl (by decide) rfl (by decide)⟩

/-! ## C6: sort order of the job list -/

theorem lexLt_irrefl (l : List Char) : lexLt l l = false := by
  induction l with
  | nil => rfl
  | cons a t ih =>
    unfold lexLt
    rw [if_neg (lt_irrefl a), if_pos rfl]
    exact ih

theorem lexLt_asymm : ∀ l m : List Char, lexLt l m = true → lexLt m l = false
  | [], [], h => by simp [lexLt] at h
  | [], _ :: _, _ => rfl
  | _ :: _, [], h => by simp [lexLt] at h
  | a :: as, b :: bs, h => by
    unfold lexLt at h ⊢
    by_cases hab : a < b
    · rw [if_neg (asymm hab), if_neg hab.ne']
    · by_cases heq : a = b
      · subst heq
        rw [if_neg hab, if_pos rfl] at h
        rw [if_neg hab, if_pos rfl]
        exact lexLt_asymm as bs h
      · rw [if_neg hab, if_neg heq] at h
        exact absurd h (by simp)

theorem lexLt_trans : ∀ l m n : List Char,
    lexLt l m = true → lexLt m n = true → lexLt l n = true
  | [], [], _, h1, _ => by simp [lexLt] at h1
  | [], _ :: _, [], _, h2 => by simp [lexLt] at h2
  | [], _ :: _, _ :: _, _, _ => rfl
  | _ :: _, [], _, h1, _ => by simp [lexLt] at h1
  | _ :: _, _ :: _, [], _, h2 => by simp [lexLt] at h2
  | a :: as, b :: bs, c :: cs, h1, h2 => by
    unfold lexLt at h1 h2 ⊢
    by_cases hab : a < b
    · by_cases hbc : b < c
      · rw [if_pos (lt_trans hab hbc)]
      · by_cases hbc2 : b = c
        · subst hbc2
          rw [if_pos hab]
        · rw [if_neg hbc, if_neg hbc2] at h2
          exact absurd h2 (by simp)
    · by_cases hab2 : a = b
      · subst hab2
        rw [if_neg hab, if_pos rfl] at h1
        by_cases hbc : a < c
        · rw [if_pos hbc]
        · by_cases hbc2 : a = c
          · subst hbc2
            rw [if_neg hbc, if_pos rfl] at h2
            rw [if_neg hbc, if_pos rfl]
            exact lexLt_trans as bs cs h1 h2
          · rw [if_neg hbc, if_neg hbc2] at h2
            exact absurd h2 (by simp)
      · rw [if_neg hab, if_neg hab2] at h1
        exact absurd h1 (by simp)

theorem lexLt_eq_of_not : ∀ l m : List Char,
    lexLt l m = false → lexLt m l = false → l = m
  | [], [], _, _ => rfl
  | [], _ :: _, h1, _ => by simp [lexLt] at h1
  | _ :: _, [], _, h2 => by simp [lexLt] at h2
  | a :: as, b :: bs, h1, h2 => by
    unfold lexLt at h1 h2
    by_cases hab : a < b
    · rw [if_pos hab] at h1
      exact absurd h1 (by simp)
    · by_cases hba : b < a
      · rw [if_pos hba] at h2
        exact absurd h2 (by simp)
      · have heq : a = b := le_antisymm (not_lt.1 hba) (not_lt.1 hab)
        subst heq
        rw [if_neg hab, if_pos rfl] at h1
        rw [if_neg hab, if_pos rfl] at h2
        rw [lexLt_eq_of_not as bs h1 h2]

theorem keyGe_trans (a b c : Job) (h1 : keyGe a b) (h2 : keyGe b c) : keyGe a c := by
  unfold keyGe at h1 h2 ⊢
  rw [Bool.not_eq_true'] at h1 h2 ⊢
  by_cases hac : lexLt (sortKey a) (sortKey c) = true
  · by_cases hba : lexLt (sortKey b) (sortKey a) = true
    · rw [lexLt_trans _ _ _ hba hac] at h2
      simp at h2
    · have hab := lexLt_eq_of_not _ _ h1 (Bool.not_eq_true _ ▸ by simpa using hba)
      rw [← hab] at h2
      rw [hac] at h2
      simp at h2
  · simpa using hac

theorem keyGe_total (a b : Job) : keyGe a b || keyGe b a := by
  unfold keyGe
  cases hx : lexLt (sortKey a) (sortKey b) with
  | false => simp
  | true => simp [lexLt_asymm _ _ hx]

theorem digitChar_lt_iff (a b : Nat) (ha : a ≤ 9) (hb : b ≤ 9) :
    digitChar a < digitChar b ↔ a < b := by
  interval_cases a <;> interval_cases b <;> decide

theorem digitChar_eq_of_eq (a b : Nat) (h : a = b) : digitChar a = digitChar b := by
  rw [h]

theorem lexLt_cons_same (c : Char) (m1 m2 : List Char) :
    lexLt (c :: m1) (c :: m2) = lexLt m1 m2 := by
  conv_lhs => unfold lexLt
  rw [if_neg (lt_irrefl c), if_pos rfl]

theorem lexLt_append_same (x m1 m2 : List Char) :
    lexLt (x ++ m1) (x ++ m2) = lexLt m1 m2 := by
  induction x with
  | nil => rfl
  | cons c t ih =>
    rw [List.cons_append, List.cons_append, lexLt_cons_same]
    exact ih

theorem lexLt_append_blocks : ∀ x y m1 m2 : List Char, x.length = y.length →
    lexLt x y = true → lexLt (x ++ m1) (y ++ m2) = true
  | [], [], _, _, _, h => by simp [lexLt] at h
  | [], _ :: _, _, _, hlen, _ => by simp at hlen
  | _ :: _, [], _, _, hlen, _ => by simp at hlen
  | a :: as, b :: bs, m1, m2, hlen, h => by
    rw [List.cons_append, List.cons_append]
    unfold lexLt at h ⊢
    by_cases hab : a < b
    · rw [if_pos hab]
    · by_cases heq : a = b
      · subst heq
        rw [if_neg hab, if_pos rfl] at h
        rw [if_neg hab, if_pos rfl]
        exact lexLt_append_blocks as bs m1 m2 (by simpa using hlen) h
      · rw [if_neg hab, if_neg heq] at h
        exact absurd h (by simp)

theorem pad2_lexLt (a b : Nat) (ha : a < 100) (hb : b < 100) (h : a < b) :
    lexLt (pad2 a) (pad2 b) = true := by
  have h10a : a / 10 ≤ 9 := by omega
  have h10b : b / 10 ≤ 9 := by omega
  have hma : a % 10 ≤ 9 := by omega
  have hmb : b % 10 ≤ 9 := by omega
  have hcases : a / 10 < b / 10 ∨ (a / 10 = b / 10 ∧ a % 10 < b % 10) := by omega
  unfold pad2
  cases hcases with
  | inl hd =>
    unfold lexLt
    rw [if_pos ((digitChar_lt_iff _ _ h10a h10b).2 hd)]
  | inr hd =>
    rw [digitChar_eq_of_eq _ _ hd.1]
    rw [show ([digitChar (b / 10), digitChar (a % 10)] : List Char)
        = [digitChar (b / 10)] ++ [digitChar (a % 10)] from rfl,
      show ([digitChar (b / 10), digitChar (b % 10)] : List Char)
        = [digitChar (b / 10)] ++ [digitChar (b % 10)] from rfl,
      lexLt_append_same]
    unfold lexLt
    rw [if_pos ((digitChar_lt_iff _ _ hma hmb).2 hd.2)]

theorem pad2_congr (a b : Nat) (h : a = b) : pad2 a = pad2 b := by rw [h]

theorem pad4_lexLt (a b : Nat) (ha : a < 10000) (hb : b < 10000) (h : a < b) :
    lexLt (pad4 a) (pad4 b) = true := by
  unfold pad4
  have hcases : a / 100 < b / 100 ∨ (a / 100 = b / 100 ∧ a % 100 < b % 100) := by omega
  cases hcases with
  | inl hd =>
    exact lexLt_append_blocks _ _ _ _ rfl
      (pad2_lexLt _ _ (by omega) (by omega) hd)
  | inr hd =>
    rw [pad2_congr _ _ hd.1, lexLt_append_same]
    exact pad2_lexLt _ _ (by omega) (by omega) hd.2

theorem daysInMonth_le (y m : Nat) : daysInMonth y m ≤ 31 := by
  unfold daysInMonth
  split
  · split <;> omega
  · split <;> omega

theorem isoChars_lexLt (t1 t2 : StructTime) (h1 : validDt t1 = true)
    (h2 : validDt t2 = true) (h : dtKey t1 < dtKey t2) :
    lexLt (isoChars t1) (isoChars t2) = true := by
  rw [validDt, decide_eq_true_eq] at h1 h2
  obtain ⟨hy1a, hy1b, hm1a, hm1b, hd1a, hd1b, hh1, hmi1, hs1⟩ := h1
  obtain ⟨hy2a, hy2b, hm2a, hm2b, hd2a, hd2b, hh2, hmi2, hs2⟩ := h2
  have hdm1 := daysInMonth_le t1.year t1.month
  have hdm2 := daysInMonth_le t2.year t2.month
  unfold dtKey at h
  have hcmp : t1.year < t2.year ∨ (t1.year = t2.year ∧
      (t1.month < t2.month ∨ (t1.month = t2.month ∧
      (t1.day < t2.day ∨ (t1.day = t2.day ∧
      (t1.hour < t2.hour ∨ (t1.hour = t2.hour ∧
      (t1.minute < t2.minute ∨ (t1.minute = t2.minute ∧
      t1.second < t2.second))))))))) := by omega
  unfold isoChars
  rcases hcmp with hy | ⟨hy, hrest⟩
  · exact lexLt_append_blocks _ _ _ _ rfl (pad4_lexLt _ _ (by omega) (by omega) hy)
  · rw [show pad4 t1.year = pad4 t2.year by rw [hy], lexLt_append_same, lexLt_cons_same]
    rcases hrest with hmo | ⟨hmo, hrest⟩
    · exact lexLt_append_blocks _ _ _ _ rfl (pad2_lexLt _ _ (by omega) (by omega) hmo)
    · rw [pad2_congr _ _ hmo, lexLt_append_same, lexLt_cons_same]
      rcases hrest with hd | ⟨hd, hrest⟩
      · exact lexLt_append_blocks _ _ _ _ rfl (pad2_lexLt _ _ (by omega) (by omega) hd)
      · rw [pad2_congr _ _ hd, lexLt_append_same, lexLt_cons_same]
        rcases hrest with hh | ⟨hh, hrest⟩
        · exact lexLt_append_blocks _ _ _ _ rfl (pad2_lexLt _ _ (by omega) (by omega) hh)
        · rw [pad2_congr _ _ hh, lexLt_append_same, lexLt_cons_same]
          rcases hrest with hmi | ⟨hmi, hs⟩
          · exact lexLt_append_blocks _ _ _ _ rfl (pad2_lexLt _ _ (by omega) (by omega) hmi)
          · rw [pad2_congr _ _ hmi, lexLt_append_same, lexLt_cons_same]
            exact pad2_lexLt _ _ (by omega) (by omega) hs

theorem isoChars_ne_nil (t : StructTime) : isoChars t ≠ [] := by
  unfold isoChars pad4 pad2
  simp

theorem lexLt_nil_cons (x : List Char) (hx : x ≠ []) : lexLt [] x = true := by
  cases x with
  | nil => exact absurd rfl hx
  | cons a t => rfl

theorem buildJob_published_date (pyHash : List Char → Int) (cfg : SourceCfg)
    (e : FeedEntry) (dt : Option StructTime) :
    (buildJob pyHash cfg e dt).published_date = dt.map isoChars := rfl

theorem processEntry_shape (pyHash : List Char → Int) (cfg : SourceCfg) (e : FeedEntry)
    (j : Job) (h : processEntry pyHash cfg e = some j) :
    j.published_date = none ∨
      ∃ t, validDt t = true ∧ j.published_date = some (isoChars t) := by
  unfold processEntry at h
  cases hpp : e.published_parsed with
  | none =>
    rw [hpp] at h
    dsimp only at h
    left
    rw [← Option.some_inj.1 h, buildJob_published_date]
    rfl
  | some t =>
    rw [hpp] at h
    dsimp only at h
    split at h
    · right
      refine ⟨t, by assumption, ?_⟩
      rw [← Option.some_inj.1 h, buildJob_published_date]
      rfl
    · simp at h

theorem sourceJobs_shape (pyHash : List Char → Int) (cfg : SourceCfg)
    (feed : Option (List FeedEntry)) (j : Job) (hj : j ∈ sourceJobs pyHash cfg feed) :
    j.published_date = none ∨
      ∃ t, validDt t = true ∧ j.published_date = some (isoChars t) := by
  unfold sourceJobs at hj
  cases feed with
  | none => simp at hj
  | some es =>
    rw [List.mem_filterMap] at hj
    obtain ⟨e, -, he⟩ := hj
    exact processEntry_shape pyHash cfg e j he

theorem pairwise_of_sorted_jobs (jobs0 : List Job)
    (hshape : ∀ j ∈ jobs0, j.published_date = none ∨
      ∃ t, validDt t = true ∧ j.published_date = some (isoChars t)) :
    (jobs0.mergeSort keyGe).Pairwise DtOrdered := by
  have hsorted := @List.sorted_mergeSort _ keyGe keyGe_trans keyGe_total jobs0
  refine List.Pairwise.imp_of_mem ?_ hsorted
  intro a b hma hmb hab
  have hbshape := hshape b (List.mem_mergeSort.1 hmb)
  unfold keyGe at hab
  rw [Bool.not_eq_true'] at hab
  constructor
  · intro hpda
    cases hbshape with
    | inl h => exact h
    | inr h =>
      obtain ⟨t, hv, hpdb⟩ := h
      exfalso
      have hka : sortKey a = [] := by unfold sortKey; rw [hpda]; rfl
      have hkb : sortKey b = isoChars t := by unfold sortKey; rw [hpdb]; rfl
      rw [hka, hkb, lexLt_nil_cons _ (isoChars_ne_nil t)] at hab
      simp at hab
  · intro t1 t2 hv1 hv2 hpda hpdb
    by_contra hlt
    push_neg at hlt
    have hka : sortKey a = isoChars t1 := by unfold sortKey; rw [hpda]; rfl
    have hkb : sortKey b = isoChars t2 := by unfold sortKey; rw [hpdb]; rfl
    rw [hka, hkb, isoChars_lexLt t1 t2 hv1 hv2 hlt] at hab
    simp at hab

/-- Every job built by the endpoint either has no published date or carries
the isoformat of a valid datetime. -/
theorem selectedJobs_shape (pyHash : List Char → Int) (source : List Char)
    (rf wf : Option (List FeedEntry)) (j : Job)
    (hj : j ∈ selectedJobs pyHash source rf wf) :
    j.published_date = none ∨
      ∃ t, validDt t = true ∧ j.published_date = some (isoChars t) := by
  unfold selectedJobs at hj
  rw [List.mem_append] at hj
  cases hj with
  | inl hjr =>
    split at hjr
    · exact sourceJobs_shape pyHash remotiveCfg rf j hjr
    · simp at hjr
  | inr hjw =>
    split at hjw
    · exact sourceJobs_shape pyHash wwrCfg wf j hjw
    · simp at hjw

/-- C6: every successful response of the jobs endpoint (in particular with
source "all") has its job list ordered by published date descending, with
every entry lacking a parseable date placed after all dated entries. -/
theorem jobs_sorted_by_date_desc (pyHash : List Char → Int) (source : List Char)
    (rf wf : Option (List FeedEntry))
    (hsucc : (get_remote_jobs pyHash source rf wf).success = true) :
    (get_remote_jobs pyHash source rf wf).jobs.Pairwise DtOrdered := by
  unfold get_remote_jobs at hsucc ⊢
  by_cases he : (selectedJobs pyHash source rf wf).isEmpty = true
  · rw [if_pos he] at hsucc
    simp at hsucc
  · rw [if_neg he] at hsucc ⊢
    dsimp only
    apply pairwise_of_sorted_jobs
    intro j hj
    exact selectedJobs_shape pyHash source rf wf j hj

/-- Witness for C6: one dated Remotive entry and one undated WWR entry. -/
theorem jobs_sorted_by_date_desc_witness :
    (get_remote_jobs (fun _ => 0) "all".data
          (some [⟨none, none, none, none, some ⟨2024, 5, 1, 12, 0, 0⟩⟩])
          (some [⟨none, none, none, some "May 2".data, none⟩])).success = true ∧
      (get_remote_jobs (fun _ => 0) "all".data
          (some [⟨none, none, none, none, some ⟨2024, 5, 1, 12, 0, 0⟩⟩])
          (some [⟨none, none, none, some "May 2".data, none⟩])).jobs.Pairwise DtOrdered :=
  ⟨by decide,
   jobs_sorted_by_date_desc (fun _ => 0) "all".data
     (some [⟨none, none, none, none, some ⟨2024, 5, 1, 12, 0, 0⟩⟩])
     (some [⟨none, none, none, some "May 2".data, none⟩]) (by decide)⟩
